import Mathlib

namespace Parrot

/-!
Shallow embedding of the parrot generation pipeline (src/generate.rs, src/tts.rs,
src/main.rs).

Modelling conventions:
* Machine `u64` arithmetic is `Nat` reduced modulo `2 ^ 64`.
* The hash used by the source is fasthash's `XXHasher` (XXH64, seed 0); Rust's
  `Hash for str` feeds a field's UTF-8 bytes followed by a `0xff` byte into the
  hasher state, so the streaming hasher is modelled as the list of bytes written
  so far, finished by the one-shot XXH64 digest of that byte stream.
* Filesystem paths are lists of path components; a relative `PathBuf` such as
  the bare derived audio filename is resolved against the process working
  directory `cwd` when its existence is tested, while emission joins the
  configured audio directory with the filename.
* Fallible operations return `Except String`; the remote Polly backend is a
  parameter mapping (text, voice id, engine) to either an error or the optional
  `audio_stream` payload, and the voice catalog response is a parameter as well.
-/

/-! ### XXH64 (fasthash::XXHasher, seed 0) -/

def M64 : Nat := 18446744073709551616

def P1 : Nat := 11400714785074694791
def P2 : Nat := 14029467366897019727
def P3 : Nat := 1609587929392839161
def P4 : Nat := 9650029242287828579
def P5 : Nat := 2870177450012600261

def wadd (a b : Nat) : Nat := (a + b) % M64

def wmul (a b : Nat) : Nat := (a * b) % M64

def wsub (a b : Nat) : Nat := (a + (M64 - b % M64)) % M64

def rotl (x r : Nat) : Nat := ((x <<< r) ||| (x >>> (64 - r))) % M64

/-- Little-endian read: the first byte is the least significant. -/
def readLE (bs : List Nat) : Nat := bs.foldr (fun b acc => b + 256 * acc) 0

def xxRound (acc lane : Nat) : Nat := wmul (rotl (wadd acc (wmul lane P2)) 31) P1

def xxMergeRound (acc v : Nat) : Nat := wadd (wmul (acc ^^^ xxRound 0 v) P1) P4

def xxStripes : Nat → Nat → Nat → Nat → List Nat → Nat × Nat × Nat × Nat × List Nat
  | v1, v2, v3, v4, a0::a1::a2::a3::a4::a5::a6::a7::
      b0::b1::b2::b3::b4::b5::b6::b7::
      c0::c1::c2::c3::c4::c5::c6::c7::
      d0::d1::d2::d3::d4::d5::d6::d7:: rest =>
    xxStripes (xxRound v1 (readLE [a0,a1,a2,a3,a4,a5,a6,a7]))
      (xxRound v2 (readLE [b0,b1,b2,b3,b4,b5,b6,b7]))
      (xxRound v3 (readLE [c0,c1,c2,c3,c4,c5,c6,c7]))
      (xxRound v4 (readLE [d0,d1,d2,d3,d4,d5,d6,d7])) rest
  | v1, v2, v3, v4, bs => (v1, v2, v3, v4, bs)

def xxTail8 : Nat → List Nat → Nat × List Nat
  | h, b0::b1::b2::b3::b4::b5::b6::b7::rest =>
    xxTail8 (wadd (wmul (rotl (h ^^^ xxRound 0 (readLE [b0,b1,b2,b3,b4,b5,b6,b7])) 27) P1) P4) rest
  | h, bs => (h, bs)

def xxTail4 : Nat → List Nat → Nat × List Nat
  | h, b0::b1::b2::b3::rest =>
    (wadd (wmul (rotl (h ^^^ wmul (readLE [b0,b1,b2,b3]) P1) 23) P2) P3, rest)
  | h, bs => (h, bs)

def xxTailBytes : Nat → List Nat → Nat
  | h, [] => h
  | h, b :: rest => xxTailBytes (wmul (rotl (h ^^^ wmul b P5) 11) P1) rest

def xxAvalanche (h0 : Nat) : Nat :=
  let h1 := h0 ^^^ (h0 >>> 33)
  let h2 := wmul h1 P2
  let h3 := h2 ^^^ (h2 >>> 29)
  let h4 := wmul h3 P3
  h4 ^^^ (h4 >>> 32)

def xxh64 (seed : Nat) (input : List Nat) : Nat :=
  let len := input.length
  let hr : Nat × List Nat :=
    if 32 ≤ len then
      match xxStripes (wadd (wadd seed P1) P2) (wadd seed P2) (seed % M64) (wsub seed P1) input with
      | (v1, v2, v3, v4, rest) =>
        let h := wadd (wadd (wadd (rotl v1 1) (rotl v2 7)) (rotl v3 12)) (rotl v4 18)
        (xxMergeRound (xxMergeRound (xxMergeRound (xxMergeRound h v1) v2) v3) v4, rest)
    else (wadd seed P5, input)
  match hr with
  | (h0, rest0) =>
    match xxTail8 (wadd h0 len) rest0 with
    | (h2, rest1) =>
      match xxTail4 h2 rest1 with
      | (h3, rest2) => xxAvalanche (xxTailBytes h3 rest2)

/-! ### Rust `Hash for str` byte stream -/

def charUtf8 (c : Char) : List Nat :=
  let n := c.toNat
  if n < 128 then [n]
  else if n < 2048 then [192 ||| (n >>> 6), 128 ||| (n &&& 63)]
  else if n < 65536 then
    [224 ||| (n >>> 12), 128 ||| ((n >>> 6) &&& 63), 128 ||| (n &&& 63)]
  else
    [240 ||| (n >>> 18), 128 ||| ((n >>> 12) &&& 63), 128 ||| ((n >>> 6) &&& 63),
      128 ||| (n &&& 63)]

def strBytes (s : String) : List Nat :=
  (s.data.map charUtf8).foldr (fun a acc => a ++ acc) []

/-- Rust's `Hash for str` writes the UTF-8 bytes of the string followed by a
single `0xff` terminator byte into the hasher state. -/
def strHashBytes (s : String) : List Nat := strBytes s ++ [255]

structure XXHasher where
  bytes : List Nat

def XXHasher.default : XXHasher := ⟨[]⟩

def XXHasher.writeStr (h : XXHasher) (s : String) : XXHasher := ⟨h.bytes ++ strHashBytes s⟩

def XXHasher.finish (h : XXHasher) : Nat := xxh64 0 h.bytes

/-! ### Fingerprinting and work items (generate.rs, WorkItem::new_from_record) -/

/-- Hash of field 0 alone, as in `record[0].hash(&mut hasher); hasher.finish()`. -/
def sentenceHashOf (record : List String) : Nat :=
  (XXHasher.default.writeStr (record.headD (""))).finish

/-- The row hash: a fresh hasher fed every field in order when the row has more
than one field, otherwise the sentence hash itself. -/
def recordHashOf (record : List String) : Nat :=
  if 1 < record.length then (record.foldl XXHasher.writeStr XXHasher.default).finish
  else sentenceHashOf record

/-- The derived audio filename, `format!("parrot_{}.mp3", sentence_hash)`. -/
def outputPathOf (record : List String) : String :=
  "parrot_" ++ toString (sentenceHashOf record) ++ ".mp3"

structure WorkItem where
  seq : Nat
  record : List String
  sentence_hash : Nat
  record_hash : Nat
  output_path : String
deriving DecidableEq

def WorkItem.new_from_record (seq : Nat) (record : List String) : WorkItem :=
  ⟨seq, record, sentenceHashOf record, recordHashOf record, outputPathOf record⟩

/-! ### WorkBundle (generate.rs) -/

structure WorkBundle where
  needs_tts : List (Nat × String)
  work_items : List WorkItem
deriving DecidableEq

def WorkBundle.new : WorkBundle := ⟨[], []⟩

/-- `BTreeMap::entry(k).or_insert_with(v)`: keep the existing entry if the key is
present, otherwise insert at the key's sorted position. -/
def insertIfAbsent : List (Nat × String) → Nat → String → List (Nat × String)
  | [], k, v => [(k, v)]
  | (k0, v0) :: rest, k, v =>
    if k < k0 then (k, v) :: (k0, v0) :: rest
    else if k = k0 then (k0, v0) :: rest
    else (k0, v0) :: insertIfAbsent rest k v

def WorkBundle.add_work_item (b : WorkBundle) (wi : WorkItem) : WorkBundle :=
  ⟨insertIfAbsent b.needs_tts wi.sentence_hash (wi.record.headD ("")),
    b.work_items ++ [wi]⟩

/-! ### Source reading (generate.rs read_source) -/

def read_source (rows : List (List String)) : Except String (List (List String)) :=
  if rows.any List.isEmpty then
    Except.error ("All rows in the source must have at least one field")
  else Except.ok rows

/-! ### The dedup filter of exec (generate.rs lines 122-144) -/

/-- The `filter_map` over enumerated records with the mutable `seen` set.  The
existence test `wi.output_path.exists()` resolves the bare relative filename
against the process working directory. -/
def filterRows (force : Bool) (fs : List String → Bool) (cwd : List String) :
    Nat → List Nat → List (List String) → List WorkItem
  | _, _, [] => []
  | seq, seen, r :: rest =>
    let wi := WorkItem.new_from_record seq r
    if (force && fs (cwd ++ [wi.output_path])) || seen.contains wi.record_hash then
      filterRows force fs cwd (seq + 1) seen rest
    else
      wi :: filterRows force fs cwd (seq + 1) (wi.record_hash :: seen) rest

def execWorkItems (force : Bool) (fs : List String → Bool) (cwd : List String)
    (rows : List (List String)) : List WorkItem :=
  filterRows force fs cwd 0 [] rows

def execBundle (force : Bool) (fs : List String → Bool) (cwd : List String)
    (rows : List (List String)) : WorkBundle :=
  (execWorkItems force fs cwd rows).foldl WorkBundle.add_work_item WorkBundle.new

/-! ### Voices (tts.rs) -/

/-- rusoto's `Voice`: every field optional. -/
structure PollyVoice where
  id : Option String
  gender : Option String
  language_name : Option String
  language_code : Option String
  supported_engines : Option (List String)
deriving DecidableEq

structure TTSVoice where
  id : String
  gender : String
  language : String
  code : String
  neural : Bool
deriving DecidableEq

def lowercase (s : String) : String := String.mk (s.data.map Char.toLower)

def supportsNeural (v : PollyVoice) : Bool :=
  (v.supported_engines.getD []).any (fun e => lowercase e == "neural")

def TTSVoice.new_from_voice (v : PollyVoice) : Option TTSVoice :=
  match v.id, v.gender, v.language_name, v.language_code with
  | some id, some gender, some language, some code =>
    some ⟨id, gender, language, code, supportsNeural v⟩
  | _, _, _, _ => none

def TTSVoice.tryFrom (v : PollyVoice) : Except String TTSVoice :=
  match TTSVoice.new_from_voice v with
  | some t => Except.ok t
  | none => Except.error ("Unable to convert Polly Voice to TTSVoice")

def list_voices (resp : Option (List PollyVoice)) : Except String (List PollyVoice) :=
  match resp with
  | some vs => Except.ok vs
  | none => Except.error ("No voices returned")

/-! ### Batch synthesis (tts.rs generate_one / generate_many) -/

def engineOf (use_neural : Bool) : String := if use_neural then "neural" else "standard"

/-- The Polly backend: (text, voice id, engine) to an error or the optional
`audio_stream` payload of the response. -/
abbrev Backend := String → String → String → Except String (Option (List Nat))

def generate_one (backend : Backend) (key : Nat) (sentence : String)
    (voice : TTSVoice) (use_neural : Bool) : Except String (Nat × List Nat) :=
  match backend sentence voice.id (engineOf use_neural) with
  | Except.error e => Except.error e
  | Except.ok none => Except.error ("Unable to get bytes from result.")
  | Except.ok (some bs) => Except.ok (key, bs)

/-- `collect::<Result<Vec<_>>>()`: the first error in iteration order wins. -/
def collectExcept {α : Type} : List (Except String α) → Except String (List α)
  | [] => Except.ok []
  | Except.error e :: _ => Except.error e
  | Except.ok x :: rest =>
    match collectExcept rest with
    | Except.ok xs => Except.ok (x :: xs)
    | Except.error e => Except.error e

def generate_many (backend : Backend) (tasks : List (Nat × String)) (voice : TTSVoice)
    (use_neural : Bool) : Except String (List (Nat × List Nat)) :=
  collectExcept (tasks.map (fun kv => generate_one backend kv.1 kv.2 voice use_neural))

/-- Does the call for one task fail (backend error or missing audio payload)? -/
def callFails (backend : Backend) (voice : TTSVoice) (use_neural : Bool)
    (kv : Nat × String) : Bool :=
  match backend kv.2 voice.id (engineOf use_neural) with
  | Except.error _ => true
  | Except.ok none => true
  | Except.ok (some _) => false

/-! ### Voice selection inside exec (generate.rs lines 146-160) -/

def voiceIdMatches (req : String) (v : PollyVoice) : Bool :=
  match v.id with
  | some vid => lowercase vid == lowercase req
  | none => false

def selectVoice (req : String) (neural : Bool) (voices : List PollyVoice) :
    Except String (Option TTSVoice) :=
  match collectExcept ((voices.filter (voiceIdMatches req)).map TTSVoice.tryFrom) with
  | Except.error e => Except.error e
  | Except.ok converted => Except.ok (converted.find? (fun v => !neural || v.neural))

/-! ### Emission (generate.rs lines 174-188) -/

def soundField (wi : WorkItem) : String := "[sound:" ++ wi.output_path ++ "]"

def outRowOf (wi : WorkItem) : List String := wi.record ++ [soundField wi]

/-- Observable outcome of a run: the terminal error if any, the audio file
writes (absolute path, bytes) in order, and the emitted output rows in order. -/
structure ExecResult where
  error : Option String
  audioWrites : List (List String × List Nat)
  outputRows : List (List String)
deriving DecidableEq

def emitLoop (results : List (Nat × List Nat)) (audioDir : List String) :
    List WorkItem → ExecResult
  | [] => ⟨none, [], []⟩
  | wi :: rest =>
    match results.lookup wi.sentence_hash with
    | some res =>
      let r := emitLoop results audioDir rest
      ⟨r.error, (audioDir ++ [wi.output_path], res) :: r.audioWrites,
        outRowOf wi :: r.outputRows⟩
    | none => ⟨some ("Couldn't find result for " ++ toString wi.sentence_hash), [], []⟩

/-! ### exec (generate.rs) and main (main.rs) -/

def exec (force neural : Bool) (voiceReq : String) (cwd audioDir : List String)
    (fs : List String → Bool) (voicesResp : Option (List PollyVoice))
    (backend : Backend) (rows : List (List String)) : ExecResult :=
  match read_source rows with
  | Except.error e => ⟨some e, [], []⟩
  | Except.ok rows0 =>
    let work := execBundle force fs cwd rows0
    match list_voices voicesResp with
    | Except.error e => ⟨some e, [], []⟩
    | Except.ok voices =>
      match selectVoice voiceReq neural voices with
      | Except.error e => ⟨some e, [], []⟩
      | Except.ok none => ⟨some ("Couldn't find voice " ++ voiceReq), [], []⟩
      | Except.ok (some voice) =>
        match generate_many backend work.needs_tts voice neural with
        | Except.error e => ⟨some e, [], []⟩
        | Except.ok results => emitLoop results audioDir work.work_items

/-- main.rs: `if let Err(e) = main_impl(command).await { println!("{}", e); }` —
the error is printed once and `main` returns unit, so the process exit code is 0
on every path.  Result: (printed lines, exit code). -/
def mainGenerate (force neural : Bool) (voiceReq : String) (cwd audioDir : List String)
    (fs : List String → Bool) (voicesResp : Option (List PollyVoice))
    (backend : Backend) (rows : List (List String)) : List String × Nat :=
  match (exec force neural voiceReq cwd audioDir fs voicesResp backend rows).error with
  | some e => ([e], 0)
  | none => ([], 0)

def hasSeq (items : List WorkItem) (i : Nat) : Bool :=
  items.any (fun wi => wi.seq == i)

/-! ### Shared concrete artifacts for witnesses and counterexamples -/

/-- A complete catalog voice supporting both engines. -/
def exampleVoice : PollyVoice :=
  ⟨some ("Joanna"), some ("Female"), some ("US English"), some ("en-US"),
    some ["standard", "neural"]⟩

/-- A selected voice value, as `selectVoice` would produce it. -/
def exampleTTSVoice : TTSVoice := ⟨"Joanna", "Female", "US English", "en-US", true⟩

/-- A backend whose every call succeeds with a one-byte payload. -/
def okBackend : Backend := fun _ _ _ => Except.ok (some [7])

/-- A backend whose every call fails. -/
def failBackend : Backend := fun _ _ _ => Except.error ("boom")

/-- A catalog voice with a matching ID but a missing gender field and no listed
engines: rusoto permits such a value, and `TTSVoice::try_from` rejects it. -/
def badVoice : PollyVoice := ⟨some ("a"), none, some ("L"), some ("C"), none⟩

/-- A filesystem on which exactly one file exists: an audio file written under
the audio directory by a previous run. -/
def exampleFs : List String → Bool :=
  fun p => decide (p = ["adir", "parrot_4608590387736105600.mp3"])

/-! ### Fingerprinting lemmas -/

/-- The byte stream obtained by feeding every field, in order, to the hasher:
each field contributes its UTF-8 bytes plus the 0xff terminator. -/
def fieldStream (l : List String) : List Nat :=
  l.foldr (fun s acc => strHashBytes s ++ acc) []

lemma foldl_writeStr_bytes (l : List String) :
    ∀ bs : List Nat, (l.foldl XXHasher.writeStr ⟨bs⟩).bytes = bs ++ fieldStream l := by
  induction l with
  | nil => intro bs; simp [fieldStream]
  | cons s l ih =>
    intro bs
    show (l.foldl XXHasher.writeStr ⟨bs ++ strHashBytes s⟩).bytes = _
    rw [ih]
    simp [fieldStream, List.append_assoc]

lemma sentenceHashOf_eq (record : List String) :
    sentenceHashOf record = xxh64 0 (strHashBytes (record.headD (""))) := rfl

lemma recordHashOf_eq_of_many (record : List String) (h : 1 < record.length) :
    recordHashOf record = xxh64 0 (fieldStream record) := by
  have hb := foldl_writeStr_bytes record []
  simp only [recordHashOf, if_pos h, XXHasher.finish]
  show xxh64 0 (record.foldl XXHasher.writeStr ⟨[]⟩).bytes = _
  rw [hb]
  simp

lemma recordHashOf_eq_of_one (record : List String) (h : record.length = 1) :
    recordHashOf record = sentenceHashOf record := by
  simp [recordHashOf, h]

/-- C7: for every parsed row, the sentence fingerprint is the XXH64 digest of
field 0's hash stream; a one-field row's row fingerprint equals its sentence
fingerprint, and a row with more than one field hashes every field fed to the
hash state independently in field order (each field's bytes plus its
terminator, concatenated). -/
theorem c7_fingerprints (seq : Nat) (fields : List String) :
    (WorkItem.new_from_record seq fields).sentence_hash =
        xxh64 0 (strHashBytes (fields.headD (""))) ∧
    (fields.length = 1 →
      (WorkItem.new_from_record seq fields).record_hash =
        (WorkItem.new_from_record seq fields).sentence_hash) ∧
    (1 < fields.length →
      (WorkItem.new_from_record seq fields).record_hash = xxh64 0 (fieldStream fields)) := by
  refine ⟨sentenceHashOf_eq fields, fun h1 => ?_, fun hm => ?_⟩
  · show recordHashOf fields = sentenceHashOf fields
    exact recordHashOf_eq_of_one fields h1
  · show recordHashOf fields = _
    exact recordHashOf_eq_of_many fields hm

theorem c7_fingerprints_witness :
    (WorkItem.new_from_record 0 ["a", "b"]).record_hash =
      xxh64 0 (fieldStream ["a", "b"]) :=
  (c7_fingerprints 0 ["a", "b"]).2.2 (by decide)

/-- C8: fingerprinting is deterministic — the fingerprints of a field sequence
do not depend on when (at which sequence position, i.e. in which run context)
the row is hashed — and the row fingerprints of ["a","b"] and ["ab"] differ, so
hashing is field-boundary sensitive. -/
theorem c8_determinism :
    (∀ (s s' : Nat) (fields : List String),
      (WorkItem.new_from_record s fields).record_hash =
          (WorkItem.new_from_record s' fields).record_hash ∧
      (WorkItem.new_from_record s fields).sentence_hash =
          (WorkItem.new_from_record s' fields).sentence_hash) ∧
    (WorkItem.new_from_record 0 ["a", "b"]).record_hash ≠
      (WorkItem.new_from_record 0 ["ab"]).record_hash :=
  ⟨fun _ _ _ => ⟨rfl, rfl⟩, by decide⟩

/-! ### Lookup utilities -/

lemma lookup_isSome_iff_mem_fst {β : Type} (l : List (Nat × β)) (k : Nat) :
    (l.lookup k).isSome = true ↔ k ∈ l.map Prod.fst := by
  induction l with
  | nil => simp [List.lookup]
  | cons kv rest ih =>
    match kv with
    | (k0, v0) =>
      by_cases h : k = k0
      · subst h; simp [List.lookup]
      · have hb : (k == k0) = false := beq_false_of_ne h
        simp [List.lookup, hb, ih, h]

/-! ### Emission lemmas -/

lemma emitLoop_of_error_none (results : List (Nat × List Nat)) (audioDir : List String) :
    ∀ items : List WorkItem, (emitLoop results audioDir items).error = none →
      (emitLoop results audioDir items).outputRows = items.map outRowOf ∧
      (emitLoop results audioDir items).audioWrites =
        items.map (fun wi =>
          (audioDir ++ [wi.output_path], (results.lookup wi.sentence_hash).getD [])) := by
  intro items
  induction items with
  | nil => intro _; exact ⟨rfl, rfl⟩
  | cons wi rest ih =>
    intro h
    cases hl : results.lookup wi.sentence_hash with
    | none => simp [emitLoop, hl] at h
    | some res =>
      have he : (emitLoop results audioDir rest).error = none := by
        simpa [emitLoop, hl] using h
      obtain ⟨h1, h2⟩ := ih he
      constructor
      · simp [emitLoop, hl, h1]
      · simp [emitLoop, hl, h2]

lemma emitLoop_outputRows_sublist (results : List (Nat × List Nat)) (audioDir : List String) :
    ∀ items : List WorkItem,
      List.Sublist (emitLoop results audioDir items).outputRows (items.map outRowOf) := by
  intro items
  induction items with
  | nil => exact List.Sublist.refl _
  | cons wi rest ih =>
    cases hl : results.lookup wi.sentence_hash with
    | none => simp [emitLoop, hl]
    | some res =>
      simpa [emitLoop, hl] using List.Sublist.cons₂ (outRowOf wi) ih

lemma emitLoop_error_none_of_lookup (results : List (Nat × List Nat)) (audioDir : List String) :
    ∀ items : List WorkItem,
      (∀ wi ∈ items, (results.lookup wi.sentence_hash).isSome = true) →
      (emitLoop results audioDir items).error = none := by
  intro items
  induction items with
  | nil => intro _; rfl
  | cons wi rest ih =>
    intro h
    have hw := h wi (List.mem_cons_self wi rest)
    cases hl : results.lookup wi.sentence_hash with
    | none => rw [hl] at hw; simp at hw
    | some res =>
      have := ih (fun x hx => h x (List.mem_cons_of_mem wi hx))
      simp [emitLoop, hl, this]

lemma emitLoop_congr_lookup (results results' : List (Nat × List Nat))
    (audioDir : List String)
    (h : ∀ k, results.lookup k = results'.lookup k) :
    ∀ items : List WorkItem,
      emitLoop results audioDir items = emitLoop results' audioDir items := by
  intro items
  induction items with
  | nil => rfl
  | cons wi rest ih => simp [emitLoop, h wi.sentence_hash, ih]

/-! ### Batch synthesis lemmas -/

lemma generate_one_of_fails (backend : Backend) (voice : TTSVoice) (use_neural : Bool)
    (kv : Nat × String) (h : callFails backend voice use_neural kv = true) :
    ∃ e, generate_one backend kv.1 kv.2 voice use_neural = Except.error e := by
  unfold callFails at h
  unfold generate_one
  cases hb : backend kv.2 voice.id (engineOf use_neural) with
  | error e => exact ⟨e, rfl⟩
  | ok o =>
    cases o with
    | none => exact ⟨_, rfl⟩
    | some bs => rw [hb] at h; simp at h

lemma generate_one_of_ok (backend : Backend) (voice : TTSVoice) (use_neural : Bool)
    (kv : Nat × String) (h : callFails backend voice use_neural kv = false) :
    ∃ bs, generate_one backend kv.1 kv.2 voice use_neural = Except.ok (kv.1, bs) := by
  unfold callFails at h
  unfold generate_one
  cases hb : backend kv.2 voice.id (engineOf use_neural) with
  | error e => rw [hb] at h; simp at h
  | ok o =>
    cases o with
    | none => rw [hb] at h; simp at h
    | some bs => exact ⟨bs, rfl⟩

lemma generate_many_error_of_fail (backend : Backend) (voice : TTSVoice) (use_neural : Bool) :
    ∀ tasks : List (Nat × String),
      (∃ kv ∈ tasks, callFails backend voice use_neural kv = true) →
      ∃ e, generate_many backend tasks voice use_neural = Except.error e := by
  intro tasks
  induction tasks with
  | nil => rintro ⟨kv, hkv, -⟩; simp at hkv
  | cons kv rest ih =>
    rintro ⟨kv', hkv', hf⟩
    rcases List.mem_cons.mp hkv' with h | h
    · subst h
      obtain ⟨e, he⟩ := generate_one_of_fails backend voice use_neural kv' hf
      exact ⟨e, by simp [generate_many, collectExcept, he]⟩
    · cases hc : callFails backend voice use_neural kv with
      | true =>
        obtain ⟨e, he⟩ := generate_one_of_fails backend voice use_neural kv hc
        exact ⟨e, by simp [generate_many, collectExcept, he]⟩
      | false =>
        obtain ⟨bs, hbs⟩ := generate_one_of_ok backend voice use_neural kv hc
        obtain ⟨e, he⟩ := ih ⟨kv', h, hf⟩
        refine ⟨e, ?_⟩
        unfold generate_many at he ⊢
        simp [collectExcept, hbs, he]

lemma generate_many_ok_keys (backend : Backend) (voice : TTSVoice) (use_neural : Bool) :
    ∀ (tasks : List (Nat × String)) (res : List (Nat × List Nat)),
      generate_many backend tasks voice use_neural = Except.ok res →
      res.map Prod.fst = tasks.map Prod.fst := by
  intro tasks
  induction tasks with
  | nil =>
    intro res h
    simp only [generate_many, List.map_nil, collectExcept] at h
    cases h
    rfl
  | cons kv rest ih =>
    intro res h
    unfold generate_many at h
    rw [List.map_cons] at h
    cases hone : generate_one backend kv.1 kv.2 voice use_neural with
    | error e => rw [hone] at h; simp only [collectExcept] at h; cases h
    | ok x =>
      rw [hone] at h
      simp only [collectExcept] at h
      cases hrest : collectExcept (rest.map fun kv =>
          generate_one backend kv.1 kv.2 voice use_neural) with
      | error e => rw [hrest] at h; cases h
      | ok xs =>
        rw [hrest] at h
        cases h
        have hx : x.1 = kv.1 := by
          unfold generate_one at hone
          cases hb : backend kv.2 voice.id (engineOf use_neural) with
          | error e => rw [hb] at hone; cases hone
          | ok o =>
            cases o with
            | none => rw [hb] at hone; cases hone
            | some bs => rw [hb] at hone; cases hone; rfl
        have := ih xs (by unfold generate_many; exact hrest)
        simp [hx, this]

/-! ### Map-insertion and bundle lemmas -/

lemma lookup_insertIfAbsent_ne (k : Nat) (v : String) (k' : Nat) (h : k' ≠ k) :
    ∀ m : List (Nat × String), (insertIfAbsent m k v).lookup k' = m.lookup k' := by
  intro m
  have hb : (k' == k) = false := beq_false_of_ne h
  induction m with
  | nil => simp [insertIfAbsent, List.lookup, hb]
  | cons kv rest ih =>
    match kv with
    | (k0, v0) =>
      by_cases h1 : k < k0
      · simp [insertIfAbsent, if_pos h1, List.lookup, hb]
      · by_cases h2 : k = k0
        · simp [insertIfAbsent, if_neg h1, if_pos h2, List.lookup]
        · by_cases h3 : k' = k0
          · subst h3; simp [insertIfAbsent, if_neg h1, if_neg h2, List.lookup]
          · have hb3 : (k' == k0) = false := beq_false_of_ne h3
            simp [insertIfAbsent, if_neg h1, if_neg h2, List.lookup, hb3, ih]

lemma lookup_none_of_not_mem_fst {β : Type} (l : List (Nat × β)) (k : Nat)
    (h : k ∉ l.map Prod.fst) : l.lookup k = none := by
  cases hl : l.lookup k with
  | none => rfl
  | some v =>
    exfalso
    exact h ((lookup_isSome_iff_mem_fst l k).mp (by rw [hl]; rfl))

lemma lookup_insertIfAbsent_self (k : Nat) (v : String) :
    ∀ m : List (Nat × String), List.Pairwise (· < ·) (m.map Prod.fst) →
      (insertIfAbsent m k v).lookup k = some ((m.lookup k).getD v) := by
  intro m
  induction m with
  | nil => intro _; simp [insertIfAbsent, List.lookup]
  | cons kv rest ih =>
    match kv with
    | (k0, v0) =>
      intro hs
      rw [List.map_cons, List.pairwise_cons] at hs
      obtain ⟨h0, hrest⟩ := hs
      by_cases h1 : k < k0
      · have hne : (k == k0) = false := beq_false_of_ne (Nat.ne_of_lt h1)
        have hnm : k ∉ rest.map Prod.fst := by
          intro hm
          exact absurd (h0 k hm) (by omega)
        simp [insertIfAbsent, if_pos h1, List.lookup, hne,
          lookup_none_of_not_mem_fst rest k hnm]
      · by_cases h2 : k = k0
        · subst h2; simp [insertIfAbsent, if_neg h1, List.lookup]
        · have hne : (k == k0) = false := beq_false_of_ne h2
          simp [insertIfAbsent, if_neg h1, if_neg h2, List.lookup, hne, ih hrest]

lemma mem_fst_insertIfAbsent (k : Nat) (v : String) (k' : Nat) :
    ∀ m : List (Nat × String),
      (k' ∈ (insertIfAbsent m k v).map Prod.fst ↔ k' = k ∨ k' ∈ m.map Prod.fst) := by
  intro m
  induction m with
  | nil => simp [insertIfAbsent]
  | cons kv rest ih =>
    match kv with
    | (k0, v0) =>
      by_cases h1 : k < k0
      · simp only [insertIfAbsent, if_pos h1, List.map_cons, List.mem_cons]
      · by_cases h2 : k = k0
        · simp only [insertIfAbsent, if_neg h1, if_pos h2, List.map_cons, List.mem_cons]
          constructor
          · exact fun h => Or.inr h
          · rintro (h | h)
            · exact Or.inl (h.trans h2)
            · exact h
        · simp only [insertIfAbsent, if_neg h1, if_neg h2, List.map_cons, List.mem_cons, ih]
          tauto

lemma sorted_insertIfAbsent (k : Nat) (v : String) :
    ∀ m : List (Nat × String), List.Pairwise (· < ·) (m.map Prod.fst) →
      List.Pairwise (· < ·) ((insertIfAbsent m k v).map Prod.fst) := by
  intro m
  induction m with
  | nil => intro _; simp [insertIfAbsent]
  | cons kv rest ih =>
    match kv with
    | (k0, v0) =>
      intro hs
      rw [List.map_cons, List.pairwise_cons] at hs
      obtain ⟨h0, hrest⟩ := hs
      by_cases h1 : k < k0
      · rw [insertIfAbsent, if_pos h1]
        simp only [List.map_cons, List.pairwise_cons]
        refine ⟨?_, ?_, hrest⟩
        · intro x hx
          rcases List.mem_cons.mp hx with h | h
          · omega
          · have := h0 x h; omega
        · exact h0
      · by_cases h2 : k = k0
        · rw [insertIfAbsent, if_neg h1, if_pos h2]
          rw [List.map_cons, List.pairwise_cons]
          exact ⟨h0, hrest⟩
        · rw [insertIfAbsent, if_neg h1, if_neg h2]
          rw [List.map_cons, List.pairwise_cons]
          refine ⟨?_, ih hrest⟩
          intro x hx
          rcases (mem_fst_insertIfAbsent k v x rest).mp hx with h | h
          · omega
          · exact h0 x h

lemma foldl_add_work_items :
    ∀ (items : List WorkItem) (b : WorkBundle),
      (items.foldl WorkBundle.add_work_item b).work_items = b.work_items ++ items := by
  intro items
  induction items with
  | nil => intro b; simp
  | cons wi items ih =>
    intro b
    rw [List.foldl_cons, ih]
    simp [WorkBundle.add_work_item]

lemma foldl_add_sorted :
    ∀ (items : List WorkItem) (b : WorkBundle),
      List.Pairwise (· < ·) (b.needs_tts.map Prod.fst) →
      List.Pairwise (· < ·) ((items.foldl WorkBundle.add_work_item b).needs_tts.map Prod.fst) := by
  intro items
  induction items with
  | nil => intro b hb; exact hb
  | cons wi items ih =>
    intro b hb
    rw [List.foldl_cons]
    exact ih _ (sorted_insertIfAbsent _ _ _ hb)

lemma foldl_add_lookup :
    ∀ (items : List WorkItem) (b : WorkBundle),
      List.Pairwise (· < ·) (b.needs_tts.map Prod.fst) → ∀ k : Nat,
      (items.foldl WorkBundle.add_work_item b).needs_tts.lookup k =
        ((b.needs_tts.lookup k).or
          ((items.find? (fun wi => wi.sentence_hash == k)).map
            (fun wi => wi.record.headD ("")))) := by
  intro items
  induction items with
  | nil =>
    intro b _ k
    simp
  | cons wi items ih =>
    intro b hb k
    rw [List.foldl_cons]
    rw [ih (b.add_work_item wi) (sorted_insertIfAbsent _ _ _ hb) k]
    by_cases hk : wi.sentence_hash = k
    · have hbeq : (wi.sentence_hash == k) = true := beq_iff_eq.mpr hk
      have hf : List.find? (fun x => x.sentence_hash == k) (wi :: items) = some wi := by
        simp only [List.find?, hbeq]
      rw [hf]
      show ((insertIfAbsent b.needs_tts wi.sentence_hash (wi.record.headD (""))).lookup k).or _ = _
      rw [← hk, lookup_insertIfAbsent_self _ _ _ hb, hk]
      cases hl : b.needs_tts.lookup k <;> simp [hl]
    · have hbeq : (wi.sentence_hash == k) = false := beq_false_of_ne hk
      have hf : List.find? (fun x => x.sentence_hash == k) (wi :: items) =
          List.find? (fun x => x.sentence_hash == k) items := by
        simp only [List.find?, hbeq]
      rw [hf]
      show ((insertIfAbsent b.needs_tts wi.sentence_hash (wi.record.headD (""))).lookup k).or _ = _
      rw [lookup_insertIfAbsent_ne _ _ _ (fun h => hk h.symm)]

lemma generate_many_ok_of_all_ok (backend : Backend) (voice : TTSVoice) (use_neural : Bool) :
    ∀ tasks : List (Nat × String),
      (∀ kv ∈ tasks, callFails backend voice use_neural kv = false) →
      ∃ res, generate_many backend tasks voice use_neural = Except.ok res := by
  intro tasks
  induction tasks with
  | nil => intro _; exact ⟨[], rfl⟩
  | cons kv rest ih =>
    intro h
    obtain ⟨bs, hbs⟩ := generate_one_of_ok backend voice use_neural kv
      (h kv (List.mem_cons_self kv rest))
    obtain ⟨res, hres⟩ := ih (fun x hx => h x (List.mem_cons_of_mem kv hx))
    refine ⟨(kv.1, bs) :: res, ?_⟩
    unfold generate_many at hres ⊢
    simp [collectExcept, hbs, hres]

/-! ### Dedup-filter lemmas -/

lemma contains_eq_mem (l : List Nat) (a : Nat) : l.contains a = true ↔ a ∈ l := by
  simp [List.contains]

lemma hasSeq_eq_true_iff (items : List WorkItem) (i : Nat) :
    hasSeq items i = true ↔ ∃ wi ∈ items, wi.seq = i := by
  simp [hasSeq, List.any_eq_true]

lemma hasSeq_cons (wi : WorkItem) (l : List WorkItem) (i : Nat) :
    hasSeq (wi :: l) i = ((wi.seq == i) || hasSeq l i) := rfl

lemma hasSeq_false_of_lt (items : List WorkItem) (s0 : Nat) (i : Nat)
    (hmem : ∀ wi ∈ items, s0 ≤ wi.seq) (hlt : i < s0) : hasSeq items i = false := by
  rw [Bool.eq_false_iff]
  intro h
  obtain ⟨wi, hwi, hseq⟩ := (hasSeq_eq_true_iff items i).mp h
  have := hmem wi hwi
  omega

lemma filterRows_mem (force : Bool) (fs : List String → Bool) (cwd : List String) :
    ∀ (rows : List (List String)) (s0 : Nat) (seen : List Nat) (wi : WorkItem),
      wi ∈ filterRows force fs cwd s0 seen rows →
      ∃ i, i < rows.length ∧ wi.seq = s0 + i ∧ rows.get? i = some wi.record ∧
        wi = WorkItem.new_from_record wi.seq wi.record := by
  intro rows
  induction rows with
  | nil => intro s0 seen wi h; simp [filterRows] at h
  | cons r rest ih =>
    intro s0 seen wi h
    simp only [filterRows] at h
    split at h
    · obtain ⟨i, hi, hseq, hget, hwi⟩ := ih (s0+1) seen wi h
      exact ⟨i+1, by simpa using hi, by omega, by simpa using hget, hwi⟩
    · rcases List.mem_cons.mp h with h | h
      · subst h
        exact ⟨0, by simp, by simp [WorkItem.new_from_record], rfl, rfl⟩
      · obtain ⟨i, hi, hseq, hget, hwi⟩ := ih (s0+1) _ wi h
        exact ⟨i+1, by simpa using hi, by omega, by simpa using hget, hwi⟩

lemma filterRows_seq_ge (force : Bool) (fs : List String → Bool) (cwd : List String)
    (rows : List (List String)) (s0 : Nat) (seen : List Nat) (wi : WorkItem)
    (h : wi ∈ filterRows force fs cwd s0 seen rows) : s0 ≤ wi.seq := by
  obtain ⟨i, _, hseq, _, _⟩ := filterRows_mem force fs cwd rows s0 seen wi h
  omega

lemma filterRows_seq_pairwise (force : Bool) (fs : List String → Bool) (cwd : List String) :
    ∀ (rows : List (List String)) (s0 : Nat) (seen : List Nat),
      List.Pairwise (· < ·)
        ((filterRows force fs cwd s0 seen rows).map (fun wi => wi.seq)) := by
  intro rows
  induction rows with
  | nil => intro s0 seen; simp [filterRows]
  | cons r rest ih =>
    intro s0 seen
    simp only [filterRows]
    split
    · exact ih (s0+1) seen
    · rw [List.map_cons, List.pairwise_cons]
      refine ⟨?_, ih (s0+1) _⟩
      intro x hx
      obtain ⟨wj, hwj, hxeq⟩ := List.mem_map.mp hx
      have hge := filterRows_seq_ge force fs cwd rest (s0+1) _ wj hwj
      subst hxeq
      show (WorkItem.new_from_record s0 r).seq < wj.seq
      simp only [WorkItem.new_from_record]
      omega

lemma filterRows_record_sublist (force : Bool) (fs : List String → Bool) (cwd : List String) :
    ∀ (rows : List (List String)) (s0 : Nat) (seen : List Nat),
      List.Sublist ((filterRows force fs cwd s0 seen rows).map (fun wi => wi.record))
        rows := by
  intro rows
  induction rows with
  | nil => intro s0 seen; simp [filterRows]
  | cons r rest ih =>
    intro s0 seen
    simp only [filterRows]
    split
    · exact (ih (s0+1) seen).trans (List.sublist_cons_self r rest)
    · rw [List.map_cons]
      exact List.Sublist.cons₂ r (ih (s0+1) _)

lemma filterRows_accept_iff (force : Bool) (fs : List String → Bool) (cwd : List String) :
    ∀ (rows : List (List String)) (s0 : Nat) (seen : List Nat) (i : Nat),
      (hasSeq (filterRows force fs cwd s0 seen rows) (s0 + i) = true ↔
        (∃ r, rows.get? i = some r ∧
          ¬(force = true ∧ fs (cwd ++ [outputPathOf r]) = true) ∧
          recordHashOf r ∉ seen ∧
          ∀ j rj, j < i → rows.get? j = some rj →
            hasSeq (filterRows force fs cwd s0 seen rows) (s0 + j) = true →
            recordHashOf rj ≠ recordHashOf r)) := by
  intro rows
  induction rows with
  | nil =>
    intro s0 seen i
    simp [filterRows, hasSeq]
  | cons r rest ih =>
    intro s0 seen i
    by_cases hc : ((force && fs (cwd ++ [(WorkItem.new_from_record s0 r).output_path])
        || seen.contains (WorkItem.new_from_record s0 r).record_hash) = true)
    · -- head row rejected
      have hfr : filterRows force fs cwd s0 seen (r :: rest) =
          filterRows force fs cwd (s0+1) seen rest := by
        simp only [filterRows]
        rw [if_pos hc]
      have hc' : (force = true ∧ fs (cwd ++ [outputPathOf r]) = true) ∨
          recordHashOf r ∈ seen := by
        simpa [WorkItem.new_from_record, Bool.or_eq_true, Bool.and_eq_true,
          contains_eq_mem] using hc
      have hlow : hasSeq (filterRows force fs cwd (s0+1) seen rest) s0 = false :=
        hasSeq_false_of_lt _ (s0+1) s0
          (fun wi hwi => filterRows_seq_ge force fs cwd rest (s0+1) seen wi hwi)
          (by omega)
      rw [hfr]
      cases i with
      | zero =>
        refine iff_of_false ?_ ?_
        · simp [hlow]
        · rintro ⟨r0, hget, hnf, hns, -⟩
          have hrr : r = r0 := by simpa using hget
          subst hrr
          rcases hc' with h | h
          · exact hnf h
          · exact hns h
      | succ i' =>
        have harith : ∀ j : Nat, s0 + (j + 1) = (s0 + 1) + j := fun j => by omega
        rw [harith i', ih (s0+1) seen i']
        constructor
        · rintro ⟨r', hget, hnf, hns, hall⟩
          refine ⟨r', by simpa using hget, hnf, hns, ?_⟩
          intro j rj hj hgetj hhas
          cases j with
          | zero => simp [hlow] at hhas
          | succ j' =>
            rw [harith j'] at hhas
            exact hall j' rj (by omega) (by simpa using hgetj) hhas
        · rintro ⟨r', hget, hnf, hns, hall⟩
          refine ⟨r', by simpa using hget, hnf, hns, ?_⟩
          intro j rj hj hgetj hhas
          rw [← harith j] at hhas
          exact hall (j+1) rj (by omega) (by simpa using hgetj) hhas
    · -- head row accepted
      have hfr : filterRows force fs cwd s0 seen (r :: rest) =
          WorkItem.new_from_record s0 r ::
            filterRows force fs cwd (s0+1)
              ((WorkItem.new_from_record s0 r).record_hash :: seen) rest := by
        simp only [filterRows]
        rw [if_neg hc]
      have hc' : ¬(force = true ∧ fs (cwd ++ [outputPathOf r]) = true) ∧
          recordHashOf r ∉ seen := by
        simpa [WorkItem.new_from_record, Bool.or_eq_true, Bool.and_eq_true,
          contains_eq_mem, not_or] using hc
      rw [hfr]
      cases i with
      | zero =>
        have hl : hasSeq (WorkItem.new_from_record s0 r ::
            filterRows force fs cwd (s0+1)
              ((WorkItem.new_from_record s0 r).record_hash :: seen) rest) (s0 + 0) = true := by
          rw [hasSeq_cons]
          simp [WorkItem.new_from_record]
        refine iff_of_true hl
          ⟨r, rfl, hc'.1, hc'.2, fun j rj hj _ _ => absurd hj (by omega)⟩
      | succ i' =>
        have harith : ∀ j : Nat, s0 + (j + 1) = (s0 + 1) + j := fun j => by omega
        have hhead : ∀ j : Nat, hasSeq (WorkItem.new_from_record s0 r ::
            filterRows force fs cwd (s0+1)
              ((WorkItem.new_from_record s0 r).record_hash :: seen) rest) (s0 + (j+1)) =
            hasSeq (filterRows force fs cwd (s0+1)
              ((WorkItem.new_from_record s0 r).record_hash :: seen) rest) ((s0+1) + j) := by
          intro j
          rw [hasSeq_cons]
          have hne : ((WorkItem.new_from_record s0 r).seq == s0 + (j+1)) = false := by
            apply beq_false_of_ne
            simp only [WorkItem.new_from_record]
            omega
          rw [hne, Bool.false_or, harith j]
        have hzero : hasSeq (WorkItem.new_from_record s0 r ::
            filterRows force fs cwd (s0+1)
              ((WorkItem.new_from_record s0 r).record_hash :: seen) rest) (s0 + 0) = true := by
          rw [hasSeq_cons]
          simp [WorkItem.new_from_record]
        rw [hhead i', ih (s0+1) _ i']
        constructor
        · rintro ⟨r', hget, hnf, hns, hall⟩
          have hns' : recordHashOf r' ≠ recordHashOf r ∧ recordHashOf r' ∉ seen := by
            simpa [WorkItem.new_from_record, List.mem_cons, not_or] using hns
          refine ⟨r', by simpa using hget, hnf, hns'.2, ?_⟩
          intro j rj hj hgetj hhas
          cases j with
          | zero =>
            have hrr : r = rj := by simpa using hgetj
            subst hrr
            exact fun he => hns'.1 he.symm
          | succ j' =>
            rw [hhead j'] at hhas
            exact hall j' rj (by omega) (by simpa using hgetj) hhas
        · rintro ⟨r', hget, hnf, hns, hall⟩
          have hne : recordHashOf r ≠ recordHashOf r' := hall 0 r (by omega) rfl hzero
          refine ⟨r', by simpa using hget, hnf, ?_, ?_⟩
          · intro hmem
            rcases List.mem_cons.mp hmem with h | h
            · have h' : recordHashOf r' = recordHashOf r := by
                simpa [WorkItem.new_from_record] using h
              exact hne h'.symm
            · exact hns h
          · intro j rj hj hgetj hhas
            rw [← hhead j] at hhas
            exact hall (j+1) rj (by omega) (by simpa using hgetj) hhas

/-- C1: a row of the source is accepted into the WorkBundle (appears among the
work items, under its sequence number) iff its RowFingerprint was not inserted
into the seen set by an earlier accepted row and the skip-if-output-exists
check (force flag set and derived output file existing) does not fire; every
rejected row is absent from the work items, and every output row of any run
arises from an accepted work item. -/
theorem c1_acceptance (force : Bool) (fs : List String → Bool) (cwd : List String)
    (rows : List (List String)) :
    (∀ i : Nat,
      (hasSeq (execWorkItems force fs cwd rows) i = true ↔
        (∃ r, rows.get? i = some r ∧
          ¬(force = true ∧ fs (cwd ++ [outputPathOf r]) = true) ∧
          ∀ j rj, j < i → rows.get? j = some rj →
            hasSeq (execWorkItems force fs cwd rows) j = true →
            recordHashOf rj ≠ recordHashOf r))) ∧
    (∀ (neural : Bool) (voiceReq : String) (audioDir : List String)
        (voicesResp : Option (List PollyVoice)) (backend : Backend),
      List.Sublist
        (exec force neural voiceReq cwd audioDir fs voicesResp backend rows).outputRows
        ((execWorkItems force fs cwd rows).map outRowOf)) := by
  constructor
  · intro i
    have h := filterRows_accept_iff force fs cwd rows 0 [] i
    simp only [Nat.zero_add, List.not_mem_nil, not_false_iff, true_and] at h
    exact h
  · intro neural voiceReq audioDir voicesResp backend
    by_cases hre : rows.any List.isEmpty
    · simp [exec, read_source, hre]
    · cases voicesResp with
      | none => simp [exec, read_source, hre, list_voices]
      | some voices =>
        cases hsel : selectVoice voiceReq neural voices with
        | error e => simp [exec, read_source, hre, list_voices, hsel]
        | ok o =>
          cases o with
          | none => simp [exec, read_source, hre, list_voices, hsel]
          | some voice =>
            cases hgen : generate_many backend (execBundle force fs cwd rows).needs_tts
                voice neural with
            | error e => simp [exec, read_source, hre, list_voices, hsel, hgen]
            | ok results =>
              have hsub := emitLoop_outputRows_sublist results audioDir
                (execBundle force fs cwd rows).work_items
              have hwork : (execBundle force fs cwd rows).work_items =
                  execWorkItems force fs cwd rows := by
                simp [execBundle, foldl_add_work_items, WorkBundle.new]
              rw [hwork] at hsub
              have hgoal : exec force neural voiceReq cwd audioDir fs (some voices)
                  backend rows =
                  emitLoop results audioDir (execBundle force fs cwd rows).work_items := by
                simp [exec, read_source, hre, list_voices, hsel, hgen]
              rw [hgoal, hwork]
              exact hsub

/-- C3: in a successful run the emitted rows are exactly the accepted work
items, in ascending original sequence order, each equal to its input row plus
exactly one appended field [sound:<derived filename>]; the accepted records
form a subsequence of the input rows, and emission reads the synthesis results
only through fingerprint lookup, so it does not depend on the order in which
results were produced. -/
theorem c3_emission (force neural : Bool) (voiceReq : String) (cwd audioDir : List String)
    (fs : List String → Bool) (voicesResp : Option (List PollyVoice)) (backend : Backend)
    (rows : List (List String))
    (h : (exec force neural voiceReq cwd audioDir fs voicesResp backend rows).error = none) :
    (exec force neural voiceReq cwd audioDir fs voicesResp backend rows).outputRows =
      (execWorkItems force fs cwd rows).map outRowOf ∧
    List.Pairwise (· < ·) ((execWorkItems force fs cwd rows).map (fun wi => wi.seq)) ∧
    (∀ wi ∈ execWorkItems force fs cwd rows,
      rows.get? wi.seq = some wi.record ∧
      outRowOf wi = wi.record ++ ["[sound:" ++ outputPathOf wi.record ++ "]"]) ∧
    List.Sublist ((execWorkItems force fs cwd rows).map (fun wi => wi.record)) rows ∧
    (∀ (results results' : List (Nat × List Nat)) (dir : List String)
        (items : List WorkItem),
      (∀ k, results.lookup k = results'.lookup k) →
      emitLoop results dir items = emitLoop results' dir items) := by
  refine ⟨?_, filterRows_seq_pairwise force fs cwd rows 0 [], ?_,
    filterRows_record_sublist force fs cwd rows 0 [], ?_⟩
  · by_cases hre : rows.any List.isEmpty
    · exfalso; simp [exec, read_source, hre] at h
    · cases voicesResp with
      | none => exfalso; simp [exec, read_source, hre, list_voices] at h
      | some voices =>
        cases hsel : selectVoice voiceReq neural voices with
        | error e => exfalso; simp [exec, read_source, hre, list_voices, hsel] at h
        | ok o =>
          cases o with
          | none => exfalso; simp [exec, read_source, hre, list_voices, hsel] at h
          | some voice =>
            cases hgen : generate_many backend (execBundle force fs cwd rows).needs_tts
                voice neural with
            | error e =>
              exfalso; simp [exec, read_source, hre, list_voices, hsel, hgen] at h
            | ok results =>
              have hruns : exec force neural voiceReq cwd audioDir fs (some voices)
                  backend rows =
                  emitLoop results audioDir (execBundle force fs cwd rows).work_items := by
                simp [exec, read_source, hre, list_voices, hsel, hgen]
              rw [hruns] at h ⊢
              have hwork : (execBundle force fs cwd rows).work_items =
                  execWorkItems force fs cwd rows := by
                simp [execBundle, foldl_add_work_items, WorkBundle.new]
              rw [hwork] at h ⊢
              exact (emitLoop_of_error_none results audioDir _ h).1
  · intro wi hwi
    obtain ⟨i, hi, hseq, hget, hwi'⟩ :=
      filterRows_mem force fs cwd rows 0 [] wi hwi
    constructor
    · rw [hseq, Nat.zero_add]
      exact hget
    · have hop : wi.output_path = outputPathOf wi.record :=
        congrArg WorkItem.output_path hwi'
      show wi.record ++ ["[sound:" ++ wi.output_path ++ "]"] = _
      rw [hop]
  · exact fun results results' dir items hk =>
      emitLoop_congr_lookup results results' dir hk items

theorem c3_emission_witness :
    (exec false false ("joanna") ["home"] ["adir"] (fun _ => false)
        (some [exampleVoice]) okBackend [["hello"], ["world"]]).outputRows =
      (execWorkItems false (fun _ => false) ["home"] [["hello"], ["world"]]).map
        outRowOf :=
  (c3_emission false false ("joanna") ["home"] ["adir"] (fun _ => false)
    (some [exampleVoice]) okBackend [["hello"], ["world"]] (by decide)).1

/-- C4: after all accepted rows are added to the bundle, the needs-synthesis
map's keys are distinct (exactly one entry per fingerprint), the entry for any
work item's SentenceFingerprint holds the field 0 of the first added item with
that fingerprint (later items do not re-insert or change it), and whenever
generate_many succeeds on that map, the missing-result error branch of emission
is unreachable. -/
theorem c4_needs_tts_invariant (items : List WorkItem) (audioDir : List String) :
    (((items.foldl WorkBundle.add_work_item WorkBundle.new).needs_tts.map Prod.fst).Nodup) ∧
    (∀ wi ∈ (items.foldl WorkBundle.add_work_item WorkBundle.new).work_items,
      ∃ first : WorkItem,
        items.find? (fun x => x.sentence_hash == wi.sentence_hash) = some first ∧
        ((items.foldl WorkBundle.add_work_item WorkBundle.new).needs_tts.lookup
            wi.sentence_hash) = some (first.record.headD (""))) ∧
    (∀ (backend : Backend) (voice : TTSVoice) (use_neural : Bool)
        (res : List (Nat × List Nat)),
      generate_many backend
          (items.foldl WorkBundle.add_work_item WorkBundle.new).needs_tts voice use_neural
        = Except.ok res →
      (emitLoop res audioDir
          (items.foldl WorkBundle.add_work_item WorkBundle.new).work_items).error = none) := by
  have hsorted := foldl_add_sorted items WorkBundle.new (by simp [WorkBundle.new])
  have hwork := foldl_add_work_items items WorkBundle.new
  have hlook := foldl_add_lookup items WorkBundle.new (by simp [WorkBundle.new])
  refine ⟨hsorted.imp (fun h => Nat.ne_of_lt h), ?_, ?_⟩
  · intro wi hwi
    rw [hwork] at hwi
    have hwi' : wi ∈ items := by simpa [WorkBundle.new] using hwi
    have hfind : (items.find? (fun x => x.sentence_hash == wi.sentence_hash)).isSome := by
      rw [List.find?_isSome]
      exact ⟨wi, hwi', by simp⟩
    obtain ⟨first, hfirst⟩ := Option.isSome_iff_exists.mp hfind
    refine ⟨first, hfirst, ?_⟩
    rw [hlook wi.sentence_hash, hfirst]
    simp [WorkBundle.new, List.lookup]
  · intro backend voice use_neural res hgen
    have hkeys := generate_many_ok_keys backend voice use_neural _ res hgen
    apply emitLoop_error_none_of_lookup
    intro wi hwi
    rw [hwork] at hwi
    have hwi' : wi ∈ items := by simpa [WorkBundle.new] using hwi
    have hfind : (items.find? (fun x => x.sentence_hash == wi.sentence_hash)).isSome := by
      rw [List.find?_isSome]
      exact ⟨wi, hwi', by simp⟩
    have hmem : wi.sentence_hash ∈
        ((items.foldl WorkBundle.add_work_item WorkBundle.new).needs_tts.map Prod.fst) := by
      rw [← lookup_isSome_iff_mem_fst, hlook wi.sentence_hash]
      obtain ⟨first, hfirst⟩ := Option.isSome_iff_exists.mp hfind
      rw [hfirst]
      simp [WorkBundle.new, List.lookup]
    rw [lookup_isSome_iff_mem_fst, hkeys]
    exact hmem

theorem c4_needs_tts_invariant_witness :
    ∃ first : WorkItem,
      [WorkItem.new_from_record 0 ["a"]].find?
          (fun x => x.sentence_hash == (WorkItem.new_from_record 0 ["a"]).sentence_hash)
        = some first ∧
      (([WorkItem.new_from_record 0 ["a"]].foldl WorkBundle.add_work_item
          WorkBundle.new).needs_tts.lookup (WorkItem.new_from_record 0 ["a"]).sentence_hash)
        = some (first.record.headD ("")) :=
  (c4_needs_tts_invariant [WorkItem.new_from_record 0 ["a"]] ["adir"]).2.1
    (WorkItem.new_from_record 0 ["a"]) (by decide)

/-- C2: all-or-nothing synthesis.  If any task's call fails (backend error or
missing audio payload) the whole batch returns an error and no partial map; if
every call succeeds, the result has exactly one entry per input key.  In a run
whose needs-synthesis map contains a failing task, exec reports an error and
performs no audio write and emits no output row. -/
theorem c2_all_or_nothing (backend : Backend) (voice : TTSVoice) (use_neural : Bool)
    (tasks : List (Nat × String))
    (force neural : Bool) (voiceReq : String) (cwd audioDir : List String)
    (fs : List String → Bool) (voices : List PollyVoice) (v : TTSVoice)
    (rows : List (List String)) :
    ((∃ kv ∈ tasks, callFails backend voice use_neural kv = true) →
      ∃ e, generate_many backend tasks voice use_neural = Except.error e) ∧
    ((∀ kv ∈ tasks, callFails backend voice use_neural kv = false) →
      ∃ res, generate_many backend tasks voice use_neural = Except.ok res ∧
        res.map Prod.fst = tasks.map Prod.fst) ∧
    (selectVoice voiceReq neural voices = Except.ok (some v) →
      (∃ kv ∈ (execBundle force fs cwd rows).needs_tts,
          callFails backend v neural kv = true) →
      ((exec force neural voiceReq cwd audioDir fs (some voices) backend rows).error.isSome
          = true ∧
        (exec force neural voiceReq cwd audioDir fs (some voices) backend rows).audioWrites
          = [] ∧
        (exec force neural voiceReq cwd audioDir fs (some voices) backend rows).outputRows
          = [])) := by
  refine ⟨generate_many_error_of_fail backend voice use_neural tasks, ?_, ?_⟩
  · intro h
    obtain ⟨res, hres⟩ := generate_many_ok_of_all_ok backend voice use_neural tasks h
    exact ⟨res, hres, generate_many_ok_keys backend voice use_neural tasks res hres⟩
  · intro hsel hfail
    by_cases hre : rows.any List.isEmpty
    · simp [exec, read_source, hre]
    · obtain ⟨e, he⟩ := generate_many_error_of_fail backend v neural _ hfail
      simp [exec, read_source, hre, list_voices, hsel, he]

theorem c2_all_or_nothing_witness :
    (∃ kv ∈ [((1 : Nat), "a")], callFails failBackend exampleTTSVoice false kv = true) ∧
    ∃ e, generate_many failBackend [((1 : Nat), "a")] exampleTTSVoice false
        = Except.error e :=
  ⟨by decide,
    (c2_all_or_nothing failBackend exampleTTSVoice false [(1, "a")]
      false false ("joanna") ["home"] ["adir"] (fun _ => false) [exampleVoice]
      exampleTTSVoice [["a"]]).1 (by decide)⟩

/-! ### Voice-selection lemmas -/

lemma collectExcept_ok_mem {α : Type} :
    ∀ (l : List (Except String α)) (out : List α),
      collectExcept l = Except.ok out → ∀ y ∈ out, Except.ok y ∈ l := by
  intro l
  induction l with
  | nil =>
    intro out h y hy
    simp only [collectExcept] at h
    cases h
    simp at hy
  | cons x rest ih =>
    intro out h y hy
    cases x with
    | error e => simp only [collectExcept] at h; cases h
    | ok a =>
      simp only [collectExcept] at h
      cases hr : collectExcept rest with
      | error e => rw [hr] at h; cases h
      | ok xs =>
        rw [hr] at h
        cases h
        rcases List.mem_cons.mp hy with h | h
        · subst h; exact List.mem_cons_self _ _
        · exact List.mem_cons_of_mem _ (ih xs hr y h)

lemma collectExcept_ok_of_all {α β : Type} (f : β → Except String α) :
    ∀ l : List β, (∀ x ∈ l, ∃ a, f x = Except.ok a) →
      ∃ out, collectExcept (l.map f) = Except.ok out := by
  intro l
  induction l with
  | nil => intro _; exact ⟨[], rfl⟩
  | cons x rest ih =>
    intro h
    obtain ⟨a, ha⟩ := h x (List.mem_cons_self x rest)
    obtain ⟨out, hout⟩ := ih (fun y hy => h y (List.mem_cons_of_mem x hy))
    exact ⟨a :: out, by simp [collectExcept, ha, hout]⟩

lemma tryFrom_ok_props (rv : PollyVoice) (t : TTSVoice)
    (h : TTSVoice.tryFrom rv = Except.ok t) :
    rv.id = some t.id ∧ t.neural = supportsNeural rv := by
  unfold TTSVoice.tryFrom at h
  rcases rv with ⟨id, gender, lname, lcode, engines⟩
  cases id with
  | none => simp [TTSVoice.new_from_voice] at h
  | some a =>
    cases gender with
    | none => simp [TTSVoice.new_from_voice] at h
    | some b =>
      cases lname with
      | none => simp [TTSVoice.new_from_voice] at h
      | some c =>
        cases lcode with
        | none => simp [TTSVoice.new_from_voice] at h
        | some d =>
          simp only [TTSVoice.new_from_voice] at h
          cases h
          exact ⟨rfl, rfl⟩

lemma selectVoice_some_props (req : String) (neural : Bool) (voices : List PollyVoice)
    (v : TTSVoice) (h : selectVoice req neural voices = Except.ok (some v)) :
    lowercase v.id = lowercase req ∧ (neural = true → v.neural = true) := by
  unfold selectVoice at h
  cases hc : collectExcept ((voices.filter (voiceIdMatches req)).map TTSVoice.tryFrom) with
  | error e => rw [hc] at h; cases h
  | ok converted =>
    rw [hc] at h
    have hfind : converted.find? (fun t => !neural || t.neural) = some v := by
      simpa using h
    have hp := List.find?_some hfind
    have hmem := List.mem_of_find?_eq_some hfind
    have hin : Except.ok v ∈ (voices.filter (voiceIdMatches req)).map TTSVoice.tryFrom :=
      collectExcept_ok_mem _ converted hc v hmem
    obtain ⟨rv, hrv, htf⟩ := List.mem_map.mp hin
    obtain ⟨-, hmatch⟩ := List.mem_filter.mp hrv
    obtain ⟨hid, -⟩ := tryFrom_ok_props rv v htf
    constructor
    · unfold voiceIdMatches at hmatch
      rw [hid] at hmatch
      exact eq_of_beq hmatch
    · intro hn
      rw [hn] at hp
      simpa using hp

lemma selectVoice_no_match (req : String) (neural : Bool) (voices : List PollyVoice)
    (hno : ∀ rv ∈ voices, ¬(voiceIdMatches req rv = true ∧
        (neural = true → supportsNeural rv = true))) :
    selectVoice req neural voices = Except.ok none ∨
      ∃ e, selectVoice req neural voices = Except.error e := by
  unfold selectVoice
  cases hc : collectExcept ((voices.filter (voiceIdMatches req)).map TTSVoice.tryFrom) with
  | error e => exact Or.inr ⟨e, rfl⟩
  | ok converted =>
    left
    have hfind : converted.find? (fun t => !neural || t.neural) = none := by
      apply List.find?_eq_none.mpr
      intro t ht
      obtain ⟨rv, hrv, htf⟩ := List.mem_map.mp (collectExcept_ok_mem _ converted hc t ht)
      obtain ⟨hrvmem, hmatch⟩ := List.mem_filter.mp hrv
      obtain ⟨-, hneu⟩ := tryFrom_ok_props rv t htf
      have hnorv := hno rv hrvmem
      cases neural with
      | false =>
        exact absurd ⟨hmatch, fun hh => absurd hh (by simp)⟩ hnorv
      | true =>
        have hs : supportsNeural rv = false := by
          cases hs' : supportsNeural rv with
          | false => rfl
          | true => exact absurd ⟨hmatch, fun _ => hs'⟩ hnorv
        rw [hs] at hneu
        simp [hneu]
    simp [hfind]

lemma collectExcept_tryFrom_error :
    ∀ l : List PollyVoice, (∃ rv ∈ l, TTSVoice.new_from_voice rv = none) →
      collectExcept (l.map TTSVoice.tryFrom) =
        Except.error ("Unable to convert Polly Voice to TTSVoice") := by
  intro l
  induction l with
  | nil => rintro ⟨rv, hrv, -⟩; simp at hrv
  | cons x rest ih =>
    rintro ⟨rv, hrv, hnone⟩
    cases hx : TTSVoice.new_from_voice x with
    | none =>
      have hx' : TTSVoice.tryFrom x =
          Except.error ("Unable to convert Polly Voice to TTSVoice") := by
        simp [TTSVoice.tryFrom, hx]
      simp [collectExcept, hx']
    | some t =>
      have hx' : TTSVoice.tryFrom x = Except.ok t := by
        simp [TTSVoice.tryFrom, hx]
      have hrest : ∃ rv ∈ rest, TTSVoice.new_from_voice rv = none := by
        rcases List.mem_cons.mp hrv with h | h
        · subst h; rw [hx] at hnone; cases hnone
        · exact ⟨rv, h, hnone⟩
      simp [collectExcept, hx', ih hrest]

lemma filterRows_force_irrelevant (fs : List String → Bool) (cwd : List String)
    (hfalse : ∀ s : String, fs (cwd ++ [s]) = false) (force : Bool) :
    ∀ (rows : List (List String)) (s0 : Nat) (seen : List Nat),
      filterRows force fs cwd s0 seen rows = filterRows false fs cwd s0 seen rows := by
  intro rows
  induction rows with
  | nil => intro s0 seen; rfl
  | cons r rest ih =>
    intro s0 seen
    simp only [filterRows, hfalse, Bool.and_false, Bool.false_and, Bool.false_or]
    rw [ih, ih]

/-- C5 counterexample: a run that ends in an error (here: a parse error on an
empty row) prints exactly one message, but the process exit code is 0, not
non-zero as the claim requires. -/
theorem c5_counterexample :
    (exec false false ("joanna") ["home"] ["adir"] (fun _ => false) (some [exampleVoice])
        okBackend [[]]).error.isSome = true ∧
    (mainGenerate false false ("joanna") ["home"] ["adir"] (fun _ => false)
        (some [exampleVoice]) okBackend [[]]).1.length = 1 ∧
    (mainGenerate false false ("joanna") ["home"] ["adir"] (fun _ => false)
        (some [exampleVoice]) okBackend [[]]).2 = 0 := by
  decide

/-- C5 amended: for every run that ends in an error, the program prints exactly
one human-readable error message and the process exits with code 0 (main
swallows the error after printing it; the exit status does not reflect it). -/
theorem c5_exit_code_amended (force neural : Bool) (voiceReq : String)
    (cwd audioDir : List String) (fs : List String → Bool)
    (voicesResp : Option (List PollyVoice)) (backend : Backend)
    (rows : List (List String)) (e : String)
    (h : (exec force neural voiceReq cwd audioDir fs voicesResp backend rows).error
        = some e) :
    mainGenerate force neural voiceReq cwd audioDir fs voicesResp backend rows
      = ([e], 0) := by
  unfold mainGenerate
  rw [h]

theorem c5_exit_code_amended_witness :
    mainGenerate false false ("joanna") ["home"] ["adir"] (fun _ => false)
        (some [exampleVoice]) okBackend [[]]
      = (["All rows in the source must have at least one field"], 0) :=
  c5_exit_code_amended false false ("joanna") ["home"] ["adir"] (fun _ => false)
    (some [exampleVoice]) okBackend [[]]
    ("All rows in the source must have at least one field") (by decide)

/-- C6 counterexample: two surviving rows sharing one sentence fingerprint give
a successful run with two audio-file writes, although only one unique
fingerprint (and one distinct target path) is involved — refuting "exactly one
audio-file write per unique SentenceFingerprint". -/
theorem c6_counterexample :
    (exec false false ("joanna") ["home"] ["adir"] (fun _ => false) (some [exampleVoice])
        okBackend [["a", "x"], ["a", "y"]]).error = none ∧
    (exec false false ("joanna") ["home"] ["adir"] (fun _ => false) (some [exampleVoice])
        okBackend [["a", "x"], ["a", "y"]]).audioWrites.length = 2 ∧
    ((execWorkItems false (fun _ => false) ["home"] [["a", "x"], ["a", "y"]]).map
        (fun wi => wi.sentence_hash)).dedup.length = 1 ∧
    ((exec false false ("joanna") ["home"] ["adir"] (fun _ => false) (some [exampleVoice])
        okBackend [["a", "x"], ["a", "y"]]).audioWrites.map Prod.fst).dedup.length
      = 1 := by
  decide

/-- C6 amended: a successful run performs exactly one audio-file write per
surviving work item (not per unique fingerprint); each write's path and bytes
are functions of the item's SentenceFingerprint alone, so items sharing a
fingerprint repeat the identical write to the same derived file. -/
theorem c6_writes_amended (force neural : Bool) (voiceReq : String)
    (cwd audioDir : List String) (fs : List String → Bool)
    (voicesResp : Option (List PollyVoice)) (backend : Backend)
    (rows : List (List String))
    (h : (exec force neural voiceReq cwd audioDir fs voicesResp backend rows).error
        = none) :
    ∃ results : List (Nat × List Nat),
      (exec force neural voiceReq cwd audioDir fs voicesResp backend rows).audioWrites =
        (execWorkItems force fs cwd rows).map (fun wi =>
          (audioDir ++ [wi.output_path], (results.lookup wi.sentence_hash).getD [])) ∧
      (exec force neural voiceReq cwd audioDir fs voicesResp backend rows).audioWrites.length
        = (execWorkItems force fs cwd rows).length ∧
      (∀ wi ∈ execWorkItems force fs cwd rows,
        wi.output_path = "parrot_" ++ toString wi.sentence_hash ++ ".mp3") := by
  have hpath : ∀ wi ∈ execWorkItems force fs cwd rows,
      wi.output_path = "parrot_" ++ toString wi.sentence_hash ++ ".mp3" := by
    intro wi hwi
    obtain ⟨i, hi, hseq, hget, hwi'⟩ := filterRows_mem force fs cwd rows 0 [] wi hwi
    have h1 : wi.output_path = outputPathOf wi.record :=
      congrArg WorkItem.output_path hwi'
    have h2 : wi.sentence_hash = sentenceHashOf wi.record :=
      congrArg WorkItem.sentence_hash hwi'
    rw [h1, h2]
    rfl
  by_cases hre : rows.any List.isEmpty
  · exfalso; simp [exec, read_source, hre] at h
  · cases voicesResp with
    | none => exfalso; simp [exec, read_source, hre, list_voices] at h
    | some voices =>
      cases hsel : selectVoice voiceReq neural voices with
      | error e => exfalso; simp [exec, read_source, hre, list_voices, hsel] at h
      | ok o =>
        cases o with
        | none => exfalso; simp [exec, read_source, hre, list_voices, hsel] at h
        | some voice =>
          cases hgen : generate_many backend (execBundle force fs cwd rows).needs_tts
              voice neural with
          | error e =>
            exfalso; simp [exec, read_source, hre, list_voices, hsel, hgen] at h
          | ok results =>
            have hruns : exec force neural voiceReq cwd audioDir fs (some voices)
                backend rows =
                emitLoop results audioDir (execBundle force fs cwd rows).work_items := by
              simp [exec, read_source, hre, list_voices, hsel, hgen]
            have hwork : (execBundle force fs cwd rows).work_items =
                execWorkItems force fs cwd rows := by
              simp [execBundle, foldl_add_work_items, WorkBundle.new]
            rw [hruns, hwork] at h ⊢
            refine ⟨results, (emitLoop_of_error_none results audioDir _ h).2, ?_, hpath⟩
            rw [(emitLoop_of_error_none results audioDir _ h).2, List.length_map]

theorem c6_writes_amended_witness :
    ∃ results : List (Nat × List Nat),
      (exec false false ("joanna") ["home"] ["adir"] (fun _ => false)
          (some [exampleVoice]) okBackend [["a", "x"], ["a", "y"]]).audioWrites =
        (execWorkItems false (fun _ => false) ["home"] [["a", "x"], ["a", "y"]]).map
          (fun wi =>
            (["adir"] ++ [wi.output_path], (results.lookup wi.sentence_hash).getD [])) ∧
      (exec false false ("joanna") ["home"] ["adir"] (fun _ => false)
          (some [exampleVoice]) okBackend [["a", "x"], ["a", "y"]]).audioWrites.length =
        (execWorkItems false (fun _ => false) ["home"] [["a", "x"], ["a", "y"]]).length ∧
      (∀ wi ∈ execWorkItems false (fun _ => false) ["home"] [["a", "x"], ["a", "y"]],
        wi.output_path = "parrot_" ++ toString wi.sentence_hash ++ ".mp3") :=
  c6_writes_amended false false ("joanna") ["home"] ["adir"] (fun _ => false)
    (some [exampleVoice]) okBackend [["a", "x"], ["a", "y"]] (by decide)

/-- C9 counterexample: a catalog whose only entry matches the requested ID but
carries no gender field and no engine list contains no voice matching the
request (neural required), yet the run fails with the voice-conversion error,
not with the voice-not-found error the claim requires. -/
theorem c9_counterexample :
    (∀ rv ∈ [badVoice], ¬(voiceIdMatches ("a") rv = true ∧ supportsNeural rv = true)) ∧
    (exec false true ("a") ["home"] ["adir"] (fun _ => false) (some [badVoice])
        okBackend [["x"]]).error = some ("Unable to convert Polly Voice to TTSVoice") ∧
    (exec false true ("a") ["home"] ["adir"] (fun _ => false) (some [badVoice])
        okBackend [["x"]]).error ≠ some ("Couldn't find voice " ++ "a") := by
  decide

/-- C9 amended: any selected voice matches the requested ID case-insensitively
and satisfies the neural requirement.  If no catalog voice matches the request,
the run fails before any synthesis call (its outcome does not depend on the
backend); the error is the voice-not-found one when every ID-matching catalog
entry converts to a complete voice, and it is the voice-conversion error
whenever some ID-matching entry lacks a required field. -/
theorem c9_voice_selection_amended (req : String) (neural force : Bool)
    (cwd audioDir : List String) (fs : List String → Bool) (voices : List PollyVoice)
    (rows : List (List String)) :
    (∀ v : TTSVoice, selectVoice req neural voices = Except.ok (some v) →
      lowercase v.id = lowercase req ∧ (neural = true → v.neural = true)) ∧
    ((∀ rv ∈ voices, ¬(voiceIdMatches req rv = true ∧
        (neural = true → supportsNeural rv = true))) →
      (∀ b1 b2 : Backend,
        exec force neural req cwd audioDir fs (some voices) b1 rows =
          exec force neural req cwd audioDir fs (some voices) b2 rows) ∧
      (∀ backend : Backend,
        (exec force neural req cwd audioDir fs (some voices) backend rows).error.isSome
          = true) ∧
      ((∀ rv ∈ voices, voiceIdMatches req rv = true →
          (TTSVoice.new_from_voice rv).isSome = true) →
        rows.any List.isEmpty = false →
        ∀ backend : Backend,
          (exec force neural req cwd audioDir fs (some voices) backend rows).error
            = some ("Couldn't find voice " ++ req)) ∧
      ((∃ rv ∈ voices, voiceIdMatches req rv = true ∧
          (TTSVoice.new_from_voice rv).isSome = false) →
        rows.any List.isEmpty = false →
        ∀ backend : Backend,
          (exec force neural req cwd audioDir fs (some voices) backend rows).error
            = some ("Unable to convert Polly Voice to TTSVoice"))) := by
  refine ⟨fun v h => selectVoice_some_props req neural voices v h, ?_⟩
  intro hno
  have hsel := selectVoice_no_match req neural voices hno
  refine ⟨?_, ?_, ?_, ?_⟩
  · intro b1 b2
    by_cases hre : rows.any List.isEmpty
    · simp [exec, read_source, hre]
    · rcases hsel with hsel | ⟨e, hsel⟩ <;>
        simp [exec, read_source, hre, list_voices, hsel]
  · intro backend
    by_cases hre : rows.any List.isEmpty
    · simp [exec, read_source, hre]
    · rcases hsel with hsel | ⟨e, hsel⟩ <;>
        simp [exec, read_source, hre, list_voices, hsel]
  · intro hconv hparse backend
    have hall : ∀ rv ∈ voices.filter (voiceIdMatches req),
        ∃ t, TTSVoice.tryFrom rv = Except.ok t := by
      intro rv hrv
      obtain ⟨hmem, hmatch⟩ := List.mem_filter.mp hrv
      obtain ⟨t, ht⟩ := Option.isSome_iff_exists.mp (hconv rv hmem hmatch)
      exact ⟨t, by simp [TTSVoice.tryFrom, ht]⟩
    obtain ⟨out, hout⟩ :=
      collectExcept_ok_of_all TTSVoice.tryFrom (voices.filter (voiceIdMatches req)) hall
    have hsel2 : selectVoice req neural voices = Except.ok none := by
      rcases hsel with hsel | ⟨e, hsel⟩
      · exact hsel
      · exfalso
        unfold selectVoice at hsel
        rw [hout] at hsel
        cases hsel
    simp [exec, read_source, hparse, list_voices, hsel2]
  · rintro ⟨rv, hmem, hmatch, hnone⟩ hparse backend
    have hnone' : TTSVoice.new_from_voice rv = none := by
      cases hn : TTSVoice.new_from_voice rv with
      | none => rfl
      | some t => rw [hn] at hnone; simp at hnone
    have hfil : rv ∈ voices.filter (voiceIdMatches req) :=
      List.mem_filter.mpr ⟨hmem, hmatch⟩
    have hcol := collectExcept_tryFrom_error (voices.filter (voiceIdMatches req))
      ⟨rv, hfil, hnone'⟩
    have hsel3 : selectVoice req neural voices =
        Except.error ("Unable to convert Polly Voice to TTSVoice") := by
      unfold selectVoice
      rw [hcol]
    simp [exec, read_source, hparse, list_voices, hsel3]

theorem c9_voice_selection_amended_witness :
    (exec false true ("a") ["home"] ["adir"] (fun _ => false) (some [])
        okBackend [["x"]]).error = some ("Couldn't find voice " ++ "a") ∧
    (exec false true ("a") ["home"] ["adir"] (fun _ => false) (some [badVoice])
        okBackend [["x"]]).error = some ("Unable to convert Polly Voice to TTSVoice") :=
  ⟨(((c9_voice_selection_amended ("a") true false ["home"] ["adir"] (fun _ => false)
      [] [["x"]]).2 (by simp)).2.2.1) (by simp) (by decide) okBackend,
    (((c9_voice_selection_amended ("a") true false ["home"] ["adir"] (fun _ => false)
      [badVoice] [["x"]]).2 (by decide)).2.2.2) (by decide) (by decide) okBackend⟩

/-- C10: the skip-if-exists test resolves the bare derived filename against the
process working directory, while emission writes under the audio directory; so
if every existing file lives under an audio directory different from the
working directory, the force flag never drops a row — the run behaves exactly
as if the flag were unset. -/
theorem c10_skip_checks_cwd (force neural : Bool) (voiceReq : String)
    (cwd audioDir : List String) (fs : List String → Bool)
    (voicesResp : Option (List PollyVoice)) (backend : Backend)
    (rows : List (List String))
    (hfs : ∀ p, fs p = true → ∃ g, p = audioDir ++ [g])
    (hne : audioDir ≠ cwd) :
    exec force neural voiceReq cwd audioDir fs voicesResp backend rows =
      exec false neural voiceReq cwd audioDir fs voicesResp backend rows := by
  have hfalse : ∀ s : String, fs (cwd ++ [s]) = false := by
    intro s
    cases h' : fs (cwd ++ [s]) with
    | false => rfl
    | true =>
      exfalso
      obtain ⟨g, hg⟩ := hfs _ h'
      have hcwd : cwd = audioDir := (List.append_inj' hg (by simp)).1
      exact hne hcwd.symm
  have hb : execBundle force fs cwd rows = execBundle false fs cwd rows := by
    simp [execBundle, execWorkItems, filterRows_force_irrelevant fs cwd hfalse force]
  by_cases hre : rows.any List.isEmpty
  · simp [exec, read_source, hre]
  · simp [exec, read_source, hre, hb]

theorem c10_skip_checks_cwd_witness :
    (∀ p, exampleFs p = true → ∃ g, p = ["adir"] ++ [g]) ∧
    (["adir"] ≠ (["home"] : List String)) ∧
    exec true false ("joanna") ["home"] ["adir"] exampleFs (some [exampleVoice])
        okBackend [["a", "x"]] =
      exec false false ("joanna") ["home"] ["adir"] exampleFs (some [exampleVoice])
        okBackend [["a", "x"]] :=
  ⟨fun p hp => ⟨"parrot_4608590387736105600.mp3", of_decide_eq_true hp⟩,
    by decide,
    c10_skip_checks_cwd true false ("joanna") ["home"] ["adir"] exampleFs
      (some [exampleVoice]) okBackend [["a", "x"]]
      (fun p hp => ⟨"parrot_4608590387736105600.mp3", of_decide_eq_true hp⟩)
      (by decide)⟩

end Parrot
